import Mathlib

/-!
Verification of the master-side secret-share protocol engine
(`mpc-core/src/secret_share/master.rs`).

The development shallowly embeds the Rust source: `curv` big integers are
modelled as `ℕ` (they are non-negative throughout this module), the modular
arithmetic helpers of `curv` (`mod_sub`, `mod_pow`, `mod_mul`) are modelled
by explicit `ℕ` formulas with normalised results, and the external Paillier
cryptosystem (`paillier` crate) is modelled concretely: an encryption key is
the modulus pair `(n, n²)`, a decryption key the prime pair `(p, q)`,
encryption is `(n+1)^m · r^n mod n²` with explicit randomness `r`, and
decryption is the standard total function `L(c^λ mod n²) · λ⁻¹ mod n`.
Rust panics (`expect`) are modelled as `Except` errors; functions whose Rust
type cannot fail are total.
-/

/-- Fast modular exponentiation by repeated squaring, with explicit fuel so
that it is structurally recursive and kernel-computable. -/
def powModAux : ℕ → ℕ → ℕ → ℕ → ℕ
  | 0, _, _, m => 1 % m
  | f + 1, b, e, m =>
    if e = 0 then 1 % m
    else
      let h := powModAux f ((b * b) % m) (e / 2) m
      if e % 2 = 1 then (h * b) % m else h

/-- With enough fuel, `powModAux` computes `b ^ e % m`. -/
theorem powModAux_correct : ∀ (f b e m : ℕ), e < 2 ^ f → powModAux f b e m = b ^ e % m := by
  intro f
  induction f with
  | zero =>
    intro b e m he
    interval_cases e
    simp [powModAux]
  | succ f ih =>
    intro b e m he
    rcases Nat.eq_zero_or_pos e with rfl | hpos
    · simp [powModAux]
    · have hne : e ≠ 0 := Nat.pos_iff_ne_zero.mp hpos
      have hdiv : e / 2 < 2 ^ f := by
        rw [pow_succ] at he
        omega
      have ihh := ih ((b * b) % m) (e / 2) m hdiv
      simp only [powModAux, hne, if_false, ihh]
      rw [← Nat.pow_mod]
      have hbb : (b * b) ^ (e / 2) = b ^ (2 * (e / 2)) := by
        rw [← pow_two, ← pow_mul]
      by_cases hp2 : e % 2 = 1
      · rw [if_pos hp2, Nat.mod_mul_mod, hbb, ← pow_succ]
        have h2 : 2 * (e / 2) + 1 = e := by omega
        rw [h2]
      · rw [if_neg hp2, hbb]
        have h2 : 2 * (e / 2) = e := by omega
        rw [h2]

/-- Casting a `powModAux` computation into `ZMod N` recovers the power. -/
theorem zmod_pow_natCast (N a e : ℕ) (he : e < 2 ^ 300) :
    ((a : ZMod N)) ^ e = ((powModAux 300 a e N : ℕ) : ZMod N) := by
  rw [powModAux_correct 300 a e N he, ZMod.natCast_mod, Nat.cast_pow]

/-- Discharge `a ^ e = 1` in `ZMod N` from a `powModAux` computation. -/
theorem pow_eq_one_of_powModAux (N a e : ℕ) (he : e < 2 ^ 300)
    (hv : powModAux 300 a e N = 1) : ((a : ZMod N)) ^ e = 1 := by
  rw [zmod_pow_natCast N a e he, hv, Nat.cast_one]

/-- Discharge `a ^ e ≠ 1` in `ZMod N` from a `powModAux` computation. -/
theorem pow_ne_one_of_powModAux (N a e v : ℕ) (he : e < 2 ^ 300)
    (hv : powModAux 300 a e N = v) (hne : v % N ≠ 1 % N) : ((a : ZMod N)) ^ e ≠ 1 := by
  rw [zmod_pow_natCast N a e he, hv]
  intro h
  exact hne ((ZMod.natCast_eq_natCast_iff' v 1 N).mp (h.trans Nat.cast_one.symm))

/-- A prime dividing the product of a list of primes is a member of the list. -/
theorem mem_of_prime_dvd_list (q : ℕ) (hq : q.Prime) (L : List ℕ)
    (hL : ∀ r ∈ L, r.Prime) (h : q ∣ L.prod) : q ∈ L := by
  obtain ⟨a, haL, hdvd⟩ := (hq.prime.dvd_prod_iff).mp h
  exact ((Nat.prime_dvd_prime_iff_eq hq (hL a haL)).mp hdvd) ▸ haL

/-- Powers of `a` modulo `m` are periodic in the exponent with period `k`
whenever `a ^ k % m = 1`. -/
theorem pow_mod_cycle (a k m e : ℕ) (h : a ^ k % m = 1) :
    a ^ e % m = a ^ (e % k) % m := by
  conv_lhs => rw [← Nat.div_add_mod e k, pow_add, pow_mul]
  rw [Nat.mul_mod, Nat.pow_mod (a ^ k), h, Nat.one_pow, ← Nat.mul_mod, Nat.one_mul]

/-- Subtraction modulo `m` as defined by `curv`: both operands are first
reduced, the modulus is added, and the result reduced again (model of
`BigInt::mod_sub`). -/
def mod_sub (a b m : ℕ) : ℕ := ((a % m + m) - b % m) % m

/-- Modular exponentiation (model of `curv`'s `BigInt::mod_pow`). -/
def mod_pow (b e m : ℕ) : ℕ := b ^ e % m

/-- Modular multiplication (model of `curv`'s `BigInt::mod_mul`). -/
def mod_mul (a b m : ℕ) : ℕ := a * b % m

/-- Big-endian byte-string-to-integer conversion (model of
`BigInt::from_bytes`). -/
def from_bytes (bs : List ℕ) : ℕ := bs.foldl (fun acc b => acc * 256 + b) 0

/-- Mathematical subtraction modulo `m`, on integers, normalised to `[0, m)`:
the language in which the specification states the round computations. -/
def subModInt (a b m : ℕ) : ℕ := (((a : ℤ) - (b : ℤ)) % (m : ℤ)).toNat

/-- Mathematical additive inverse modulo `m`, on integers, normalised to
`[0, m)`. -/
def negModInt (a m : ℕ) : ℕ := ((-(a : ℤ)) % (m : ℤ)).toNat

/-- The `curv` subtraction `mod_sub` computes exactly mathematical
subtraction modulo `m`. -/
theorem mod_sub_eq_subModInt (a b m : ℕ) : mod_sub a b m = subModInt a b m := by
  rcases Nat.eq_zero_or_pos m with rfl | hm
  · simp only [mod_sub, subModInt, Nat.mod_zero, Nat.add_zero, Nat.cast_zero, Int.emod_zero]
    omega
  · have hble : b % m ≤ a % m + m := le_of_lt (lt_of_lt_of_le (Nat.mod_lt b hm) (Nat.le_add_left m (a % m)))
    have key : ∀ x y : ℤ, (x % m + m - y % m) % m = (x - y) % m := by
      intro x y
      conv_rhs => rw [Int.sub_emod]
      rw [Int.sub_emod (x % m + m)]
      congr 1
      congr 1
      · rw [Int.add_emod, Int.emod_self, add_zero, Int.emod_emod_of_dvd _ dvd_rfl,
          Int.emod_emod_of_dvd _ dvd_rfl]
      · rw [Int.emod_emod_of_dvd _ dvd_rfl]
    have hcast : ((mod_sub a b m : ℕ) : ℤ) = ((a : ℤ) - (b : ℤ)) % (m : ℤ) := by
      simp only [mod_sub]
      push_cast [Nat.cast_sub hble]
      exact key a b
    simp only [subModInt]
    rw [← hcast, Int.toNat_natCast]

/-- The additive inverse modulo `m` coincides with mathematical subtraction
of `a` from `m` modulo `m` (the form the source computes). -/
theorem subModInt_self_eq_negModInt (a m : ℕ) : subModInt m a m = negModInt a m := by
  simp only [subModInt, negModInt]
  have h : ((m : ℤ) - (a : ℤ)) % m = (-(a : ℤ)) % m := by
    calc ((m : ℤ) - (a : ℤ)) % m
        = ((m : ℤ) % m - (a : ℤ) % m) % m := Int.sub_emod m a m
      _ = (0 - (a : ℤ) % m) % m := by rw [Int.emod_self]
      _ = (0 % m - (a : ℤ) % m) % m := by rw [Int.zero_emod]
      _ = (0 - (a : ℤ)) % m := (Int.sub_emod 0 a m).symm
      _ = (-(a : ℤ)) % m := by rw [zero_sub]
  rw [h]

/-- Brute-force modular inverse, used only inside the decryption model. -/
def modInverse (a n : ℕ) : ℕ := (((List.range n).find? (fun x => a * x % n == 1)).getD 0)

/-- Paillier public encryption key (model of the external `paillier` crate):
the modulus `n` and its square `nn`. -/
structure EncryptionKey where
  n : ℕ
  nn : ℕ
  deriving DecidableEq

/-- Paillier private decryption key (model of the external `paillier` crate):
the two primes. -/
structure DecryptionKey where
  p : ℕ
  q : ℕ
  deriving DecidableEq

/-- A Paillier keypair, i.e. the randomness of `Paillier::keypair()` made
explicit: the two generated primes. -/
structure Keypair where
  p : ℕ
  q : ℕ
  deriving DecidableEq

/-- Derive the encryption/decryption keys from a keypair (model of
`Keypair::keys`). -/
def Keypair.keys (kp : Keypair) : EncryptionKey × DecryptionKey :=
  (⟨kp.p * kp.q, (kp.p * kp.q) * (kp.p * kp.q)⟩, ⟨kp.p, kp.q⟩)

/-- Paillier encryption with generator `g = n + 1` and explicit randomness
`r` (model of `Paillier::encrypt`): `(n+1)^m · r^n mod n²`. -/
def paillierEncrypt (ek : EncryptionKey) (r m : ℕ) : ℕ :=
  ((ek.n + 1) ^ m * r ^ ek.n) % ek.nn

/-- Paillier decryption (model of `Paillier::decrypt`):
`L(c^λ mod n²) · λ⁻¹ mod n` with `λ = lcm(p−1, q−1)`. The function is total:
every number decrypts to some residue, valid ciphertext or not. -/
def paillierDecrypt (dk : DecryptionKey) (c : ℕ) : ℕ :=
  let n := dk.p * dk.q
  let lam := Nat.lcm (dk.p - 1) (dk.q - 1)
  (c ^ lam % (n * n) - 1) / n * modInverse lam n % n

/-- Every Paillier ciphertext is reduced modulo `nn`; in particular any
number `≥ nn` is not a valid encryption under the key. -/
theorem paillierEncrypt_lt (ek : EncryptionKey) (r m : ℕ) (h : 0 < ek.nn) :
    paillierEncrypt ek r m < ek.nn := Nat.mod_lt _ h

/-- SEC1 encoded elliptic-curve point (model of `p256::EncodedPoint`):
identity, compressed (x plus y-parity), or uncompressed (x and y byte
strings). -/
inductive EncodedPoint where
  | identity : EncodedPoint
  | compressed : List ℕ → Bool → EncodedPoint
  | uncompressed : List ℕ → List ℕ → EncodedPoint
  deriving DecidableEq

/-- The x-coordinate bytes, when present (model of `EncodedPoint::x`). -/
def EncodedPoint.x : EncodedPoint → Option (List ℕ)
  | .identity => none
  | .compressed xb _ => some xb
  | .uncompressed xb _ => some xb

/-- The y-coordinate bytes: present only on uncompressed points (model of
`EncodedPoint::y`). -/
def EncodedPoint.y : EncodedPoint → Option (List ℕ)
  | .identity => none
  | .compressed _ _ => none
  | .uncompressed _ yb => some yb

/-- Failure conditions of the master core. `invalidPoint` models the
construction-time panic on a point without extractable coordinates;
`decryptionError` is the failure the specification attributes to corrupt
ciphertexts. -/
inductive SecretShareError where
  | invalidPoint : SecretShareError
  | decryptionError : SecretShareError
  deriving DecidableEq

/-- Initial state: the master's secret point coordinates. -/
structure Initialized where
  x : ℕ
  y : ℕ
  deriving DecidableEq

/-- State after round 1 (marker only). -/
inductive StepOne where
  | mk : StepOne
  deriving DecidableEq

/-- State after round 2: retains `A * M_A mod p`. -/
structure StepTwo where
  a_masked_mod_p : ℕ
  deriving DecidableEq

/-- State after round 3 (marker only). -/
inductive StepThree where
  | mk : StepThree
  deriving DecidableEq

/-- Terminal state: the master's secret. -/
structure Complete where
  secret : ℕ
  deriving DecidableEq

/-- The master core: the NIST P-256 prime, the current protocol state, and
the session's Paillier keypair. -/
structure SecretShareMasterCore (S : Type) where
  p : ℕ
  state : S
  enc_key : EncryptionKey
  dec_key : DecryptionKey
  deriving DecidableEq

/-- Round-1 outbound message. -/
structure M1 where
  enc_key : EncryptionKey
  e_x_q : ℕ
  e_neg_x_q : ℕ
  e_y_q_pow_2 : ℕ
  e_neg_2_y_q : ℕ
  deriving DecidableEq

/-- Round-2 outbound message. -/
structure M2 where
  e_t_mod_pow : ℕ
  deriving DecidableEq

/-- Round-3 outbound message. -/
structure M3 where
  e_ab_masked : ℕ
  deriving DecidableEq

/-- Round-2 inbound message. Modelled from the spec: the shape is declared in
`secret_share/slave.rs`, which is not among the provided sources; per the
specification it carries the two peer-blinded ciphertexts and the two
plaintext correction scalars. -/
structure S1 where
  e_a_masked : ℕ
  n_a_mod_p : ℕ
  e_t_masked : ℕ
  n_t_mod_p : ℕ
  deriving DecidableEq

/-- Round-3 inbound message. Modelled from the spec: declared in
`secret_share/slave.rs` (not provided); one ciphertext plus one correction
scalar. -/
structure S2 where
  e_b_masked : ℕ
  n_b_mod_p : ℕ
  deriving DecidableEq

/-- Round-4 inbound message. Modelled from the spec: declared in
`secret_share/slave.rs` (not provided); the final combined ciphertext. -/
structure S3 where
  e_pms_masked : ℕ
  deriving DecidableEq

/-- Modelled from the spec: the constant `P` of the `secret_share` module
(`mod.rs`, not among the provided sources) — the NIST P-256 field prime,
parsed by `BigInt::from_hex` at construction time. -/
def P : ℕ := 0xffffffff00000001000000000000000000000000ffffffffffffffffffffffff

/-- Session construction (model of `SecretShareMasterCore::<Initialized>::new`).
The keypair generated by `Paillier::keypair()` is passed explicitly. The two
`expect` panics on a point without extractable coordinates are modelled as an
`invalidPoint` error. -/
def SecretShareMasterCore.new (point : EncodedPoint) (kp : Keypair) :
    Except SecretShareError (SecretShareMasterCore Initialized) :=
  match point.x, point.y with
  | some xb, some yb =>
      .ok { p := P
            state := { x := from_bytes xb, y := from_bytes yb }
            enc_key := kp.keys.1
            dec_key := kp.keys.2 }
  | _, _ => .error .invalidPoint

/-- Round 1 (model of `SecretShareMasterCore::<Initialized>::next`). The
randomness of the four encryptions is passed explicitly. -/
def Initialized.next (self : SecretShareMasterCore Initialized) (r1 r2 r3 r4 : ℕ) :
    M1 × SecretShareMasterCore StepOne :=
  let e_x_q := paillierEncrypt self.enc_key r1 self.state.x
  let e_neg_x_q := paillierEncrypt self.enc_key r2 (mod_sub self.p self.state.x self.p)
  let e_y_q_pow_2 := paillierEncrypt self.enc_key r3 (mod_pow self.state.y 2 self.p)
  let e_neg_2_y_q := paillierEncrypt self.enc_key r4 (mod_sub self.p (2 * self.state.y) self.p)
  (⟨self.enc_key, e_x_q, e_neg_x_q, e_y_q_pow_2, e_neg_2_y_q⟩,
   ⟨self.p, StepOne.mk, self.enc_key, self.dec_key⟩)

/-- Round 2 (model of `SecretShareMasterCore::<StepOne>::next`). -/
def StepOne.next (self : SecretShareMasterCore StepOne) (s : S1) (r : ℕ) :
    M2 × SecretShareMasterCore StepTwo :=
  let a_masked := paillierDecrypt self.dec_key s.e_a_masked
  let a_masked_mod_p := mod_sub a_masked s.n_a_mod_p self.p
  let t_masked := paillierDecrypt self.dec_key s.e_t_masked
  let t_masked_mod_p := mod_sub t_masked s.n_t_mod_p self.p
  let t_mod_pow := mod_pow t_masked_mod_p (self.p - 3) self.p
  let e_t_mod_pow := paillierEncrypt self.enc_key r t_mod_pow
  (⟨e_t_mod_pow⟩, ⟨self.p, ⟨a_masked_mod_p⟩, self.enc_key, self.dec_key⟩)

/-- Round 2 in `Except` form: the faithful error-aware embedding of the Rust
transition, whose return type `(M2, SecretShareMasterCore<StepTwo>)` has no
error path — the underlying decryption is total, so the result is always
`ok`. -/
def StepOne.nextE (self : SecretShareMasterCore StepOne) (s : S1) (r : ℕ) :
    Except SecretShareError (M2 × SecretShareMasterCore StepTwo) :=
  .ok (StepOne.next self s r)

/-- Round 3 (model of `SecretShareMasterCore::<StepTwo>::next`). -/
def StepTwo.next (self : SecretShareMasterCore StepTwo) (s : S2) (r : ℕ) :
    M3 × SecretShareMasterCore StepThree :=
  let b_masked := paillierDecrypt self.dec_key s.e_b_masked
  let b_masked_mod_p := mod_sub b_masked s.n_b_mod_p self.p
  let e_ab_masked :=
    paillierEncrypt self.enc_key r (mod_mul b_masked_mod_p self.state.a_masked_mod_p self.p)
  (⟨e_ab_masked⟩, ⟨self.p, StepThree.mk, self.enc_key, self.dec_key⟩)

/-- Round 4 (model of `SecretShareMasterCore::<StepThree>::next`). -/
def StepThree.next (self : SecretShareMasterCore StepThree) (s : S3) :
    SecretShareMasterCore Complete :=
  let pms_masked := paillierDecrypt self.dec_key s.e_pms_masked
  ⟨self.p, ⟨pms_masked % self.p⟩, self.enc_key, self.dec_key⟩

/-- Secret extraction (model of `SecretShareMasterCore::<Complete>::secret`). -/
def SecretShareMasterCore.secret (self : SecretShareMasterCore Complete) : ℕ :=
  self.state.secret

/-- The master session in an arbitrary protocol state: the disjoint union of
the five typestates of `SecretShareMasterCore`. -/
inductive MasterState where
  | initialized : SecretShareMasterCore Initialized → MasterState
  | stepOne : SecretShareMasterCore StepOne → MasterState
  | stepTwo : SecretShareMasterCore StepTwo → MasterState
  | stepThree : SecretShareMasterCore StepThree → MasterState
  | complete : SecretShareMasterCore Complete → MasterState

/-- The operations available on a session: exactly the four round
transitions of the source, each consuming the state it is defined on. Inbound
messages and encryption randomness are the labels, existentially packed. -/
inductive MasterStep : MasterState → MasterState → Prop where
  | round1 (c : SecretShareMasterCore Initialized) (r1 r2 r3 r4 : ℕ) :
      MasterStep (.initialized c) (.stepOne (Initialized.next c r1 r2 r3 r4).2)
  | round2 (c : SecretShareMasterCore StepOne) (s : S1) (r : ℕ) :
      MasterStep (.stepOne c) (.stepTwo (StepOne.next c s r).2)
  | round3 (c : SecretShareMasterCore StepTwo) (s : S2) (r : ℕ) :
      MasterStep (.stepTwo c) (.stepThree (StepTwo.next c s r).2)
  | round4 (c : SecretShareMasterCore StepThree) (s : S3) :
      MasterStep (.stepThree c) (.complete (StepThree.next c s))

/-- `StepN n s t`: state `t` is reachable from state `s` in exactly `n`
round transitions. -/
inductive StepN : ℕ → MasterState → MasterState → Prop where
  | refl (s : MasterState) : StepN 0 s s
  | tail {n : ℕ} {s t u : MasterState} (h : StepN n s t) (hstep : MasterStep t u) :
      StepN (n + 1) s u

/-- The position of a state in the protocol order. -/
def roundIndex : MasterState → ℕ
  | .initialized _ => 0
  | .stepOne _ => 1
  | .stepTwo _ => 2
  | .stepThree _ => 3
  | .complete _ => 4
set_option maxRecDepth 8000

/-- Primality of the Pratt-chain factor 5 (by trial division). -/
theorem prime5 : Nat.Prime 5 := by norm_num

/-- Primality of the Pratt-chain factor 7 (by trial division). -/
theorem prime7 : Nat.Prime 7 := by norm_num

/-- Primality of the Pratt-chain factor 11 (by trial division). -/
theorem prime11 : Nat.Prime 11 := by norm_num

/-- Primality of the Pratt-chain factor 17 (by trial division). -/
theorem prime17 : Nat.Prime 17 := by norm_num

/-- Primality of the Pratt-chain factor 23 (by trial division). -/
theorem prime23 : Nat.Prime 23 := by norm_num

/-- Primality of the Pratt-chain factor 53 (by trial division). -/
theorem prime53 : Nat.Prime 53 := by norm_num

/-- Primality of the Pratt-chain factor 107 (by trial division). -/
theorem prime107 : Nat.Prime 107 := by norm_num

/-- Primality of the Pratt-chain factor 173 (by trial division). -/
theorem prime173 : Nat.Prime 173 := by norm_num

/-- Primality of the Pratt-chain factor 197 (by trial division). -/
theorem prime197 : Nat.Prime 197 := by norm_num

/-- Primality of the Pratt-chain factor 257 (by trial division). -/
theorem prime257 : Nat.Prime 257 := by norm_num

/-- Primality of the Pratt-chain factor 641 (by trial division). -/
theorem prime641 : Nat.Prime 641 := by norm_num

/-- Primality of the Pratt-chain factor 1531 (by trial division). -/
theorem prime1531 : Nat.Prime 1531 := by norm_num

/-- Primality of the Pratt-chain factor 2411 (by trial division). -/
theorem prime2411 : Nat.Prime 2411 := by norm_num

/-- Primality of the Pratt-chain factor 3677 (by trial division). -/
theorem prime3677 : Nat.Prime 3677 := by norm_num

/-- Primality of the Pratt-chain factor 3769 (by trial division). -/
theorem prime3769 : Nat.Prime 3769 := by norm_num

/-- Primality of the Pratt-chain factor 18169 (by trial division). -/
theorem prime18169 : Nat.Prime 18169 := by norm_num

/-- Primality of the Pratt-chain factor 65537 (by trial division). -/
theorem prime65537 : Nat.Prime 65537 := by norm_num

/-- Primality of the Pratt-chain factor 78283 (by trial division). -/
theorem prime78283 : Nat.Prime 78283 := by norm_num

/-- Primality of the Pratt-chain factor 490463 (by trial division). -/
theorem prime490463 : Nat.Prime 490463 := by norm_num

/-- Primality of the Pratt-chain factor 704251 (by trial division). -/
theorem prime704251 : Nat.Prime 704251 := by norm_num

/-- Primality of the Pratt-chain factor 6700417 (by trial division). -/
theorem prime6700417 : Nat.Prime 6700417 := by norm_num

/-- Lucas primality certificate for the Pratt-chain factor 204061199. -/
theorem prime204061199 : Nat.Prime 204061199 := by
  have hL : ∀ r ∈ [2, 11, 23, 107, 3769], Nat.Prime r := by
    intro r hr
    fin_cases hr
    · exact Nat.prime_two
    · exact prime11
    · exact prime23
    · exact prime107
    · exact prime3769
  apply lucas_primality 204061199 ((11 : ℕ) : ZMod 204061199)
  · exact pow_eq_one_of_powModAux 204061199 11 (204061199 - 1) (by decide) (by decide)
  · intro q hq hdvd
    have hfac : (204061199 : ℕ) - 1 = ([2, 11, 23, 107, 3769] : List ℕ).prod := by decide
    rw [hfac] at hdvd
    have hmem := mem_of_prime_dvd_list q hq _ hL hdvd
    simp only [List.mem_cons, List.not_mem_nil, or_false] at hmem
    rcases hmem with rfl | rfl | rfl | rfl | rfl
    · exact pow_ne_one_of_powModAux 204061199 11 ((204061199 - 1) / 2) 204061198 (by decide) (by decide) (by decide)
    · exact pow_ne_one_of_powModAux 204061199 11 ((204061199 - 1) / 11) 155607935 (by decide) (by decide) (by decide)
    · exact pow_ne_one_of_powModAux 204061199 11 ((204061199 - 1) / 23) 148327957 (by decide) (by decide) (by decide)
    · exact pow_ne_one_of_powModAux 204061199 11 ((204061199 - 1) / 107) 176708376 (by decide) (by decide) (by decide)
    · exact pow_ne_one_of_powModAux 204061199 11 ((204061199 - 1) / 3769) 72766951 (by decide) (by decide) (by decide)

/-- Lucas primality certificate for the Pratt-chain factor 34282281433. -/
theorem prime34282281433 : Nat.Prime 34282281433 := by
  have hL : ∀ r ∈ [2, 2, 2, 3, 7, 204061199], Nat.Prime r := by
    intro r hr
    fin_cases hr
    · exact Nat.prime_two
    · exact Nat.prime_two
    · exact Nat.prime_two
    · exact Nat.prime_three
    · exact prime7
    · exact prime204061199
  apply lucas_primality 34282281433 ((17 : ℕ) : ZMod 34282281433)
  · exact pow_eq_one_of_powModAux 34282281433 17 (34282281433 - 1) (by decide) (by decide)
  · intro q hq hdvd
    have hfac : (34282281433 : ℕ) - 1 = ([2, 2, 2, 3, 7, 204061199] : List ℕ).prod := by decide
    rw [hfac] at hdvd
    have hmem := mem_of_prime_dvd_list q hq _ hL hdvd
    simp only [List.mem_cons, List.not_mem_nil, or_false] at hmem
    rcases hmem with rfl | rfl | rfl | rfl | rfl | rfl
    · exact pow_ne_one_of_powModAux 34282281433 17 ((34282281433 - 1) / 2) 34282281432 (by decide) (by decide) (by decide)
    · exact pow_ne_one_of_powModAux 34282281433 17 ((34282281433 - 1) / 2) 34282281432 (by decide) (by decide) (by decide)
    · exact pow_ne_one_of_powModAux 34282281433 17 ((34282281433 - 1) / 2) 34282281432 (by decide) (by decide) (by decide)
    · exact pow_ne_one_of_powModAux 34282281433 17 ((34282281433 - 1) / 3) 2081964342 (by decide) (by decide) (by decide)
    · exact pow_ne_one_of_powModAux 34282281433 17 ((34282281433 - 1) / 7) 20356466339 (by decide) (by decide) (by decide)
    · exact pow_ne_one_of_powModAux 34282281433 17 ((34282281433 - 1) / 204061199) 31815905754 (by decide) (by decide) (by decide)

/-- Lucas primality certificate for the Pratt-chain factor 66417393611. -/
theorem prime66417393611 : Nat.Prime 66417393611 := by
  have hL : ∀ r ∈ [2, 5, 53, 173, 197, 3677], Nat.Prime r := by
    intro r hr
    fin_cases hr
    · exact Nat.prime_two
    · exact prime5
    · exact prime53
    · exact prime173
    · exact prime197
    · exact prime3677
  apply lucas_primality 66417393611 ((6 : ℕ) : ZMod 66417393611)
  · exact pow_eq_one_of_powModAux 66417393611 6 (66417393611 - 1) (by decide) (by decide)
  · intro q hq hdvd
    have hfac : (66417393611 : ℕ) - 1 = ([2, 5, 53, 173, 197, 3677] : List ℕ).prod := by decide
    rw [hfac] at hdvd
    have hmem := mem_of_prime_dvd_list q hq _ hL hdvd
    simp only [List.mem_cons, List.not_mem_nil, or_false] at hmem
    rcases hmem with rfl | rfl | rfl | rfl | rfl | rfl
    · exact pow_ne_one_of_powModAux 66417393611 6 ((66417393611 - 1) / 2) 66417393610 (by decide) (by decide) (by decide)
    · exact pow_ne_one_of_powModAux 66417393611 6 ((66417393611 - 1) / 5) 61126100703 (by decide) (by decide) (by decide)
    · exact pow_ne_one_of_powModAux 66417393611 6 ((66417393611 - 1) / 53) 6582512042 (by decide) (by decide) (by decide)
    · exact pow_ne_one_of_powModAux 66417393611 6 ((66417393611 - 1) / 173) 31915108789 (by decide) (by decide) (by decide)
    · exact pow_ne_one_of_powModAux 66417393611 6 ((66417393611 - 1) / 197) 42189189063 (by decide) (by decide) (by decide)
    · exact pow_ne_one_of_powModAux 66417393611 6 ((66417393611 - 1) / 3677) 22248715490 (by decide) (by decide) (by decide)

/-- Lucas primality certificate for the Pratt-chain factor 11290956913871. -/
theorem prime11290956913871 : Nat.Prime 11290956913871 := by
  have hL : ∀ r ∈ [2, 5, 17, 66417393611], Nat.Prime r := by
    intro r hr
    fin_cases hr
    · exact Nat.prime_two
    · exact prime5
    · exact prime17
    · exact prime66417393611
  apply lucas_primality 11290956913871 ((13 : ℕ) : ZMod 11290956913871)
  · exact pow_eq_one_of_powModAux 11290956913871 13 (11290956913871 - 1) (by decide) (by decide)
  · intro q hq hdvd
    have hfac : (11290956913871 : ℕ) - 1 = ([2, 5, 17, 66417393611] : List ℕ).prod := by decide
    rw [hfac] at hdvd
    have hmem := mem_of_prime_dvd_list q hq _ hL hdvd
    simp only [List.mem_cons, List.not_mem_nil, or_false] at hmem
    rcases hmem with rfl | rfl | rfl | rfl
    · exact pow_ne_one_of_powModAux 11290956913871 13 ((11290956913871 - 1) / 2) 11290956913870 (by decide) (by decide) (by decide)
    · exact pow_ne_one_of_powModAux 11290956913871 13 ((11290956913871 - 1) / 5) 143627332910 (by decide) (by decide) (by decide)
    · exact pow_ne_one_of_powModAux 11290956913871 13 ((11290956913871 - 1) / 17) 1388400962582 (by decide) (by decide) (by decide)
    · exact pow_ne_one_of_powModAux 11290956913871 13 ((11290956913871 - 1) / 66417393611) 4101875413716 (by decide) (by decide) (by decide)

/-- Lucas primality certificate for the Pratt-chain factor 46076956964474543. -/
theorem prime46076956964474543 : Nat.Prime 46076956964474543 := by
  have hL : ∀ r ∈ [2, 23, 18169, 78283, 704251], Nat.Prime r := by
    intro r hr
    fin_cases hr
    · exact Nat.prime_two
    · exact prime23
    · exact prime18169
    · exact prime78283
    · exact prime704251
  apply lucas_primality 46076956964474543 ((5 : ℕ) : ZMod 46076956964474543)
  · exact pow_eq_one_of_powModAux 46076956964474543 5 (46076956964474543 - 1) (by decide) (by decide)
  · intro q hq hdvd
    have hfac : (46076956964474543 : ℕ) - 1 = ([2, 23, 18169, 78283, 704251] : List ℕ).prod := by decide
    rw [hfac] at hdvd
    have hmem := mem_of_prime_dvd_list q hq _ hL hdvd
    simp only [List.mem_cons, List.not_mem_nil, or_false] at hmem
    rcases hmem with rfl | rfl | rfl | rfl | rfl
    · exact pow_ne_one_of_powModAux 46076956964474543 5 ((46076956964474543 - 1) / 2) 46076956964474542 (by decide) (by decide) (by decide)
    · exact pow_ne_one_of_powModAux 46076956964474543 5 ((46076956964474543 - 1) / 23) 21157064686894433 (by decide) (by decide) (by decide)
    · exact pow_ne_one_of_powModAux 46076956964474543 5 ((46076956964474543 - 1) / 18169) 19827985741493455 (by decide) (by decide) (by decide)
    · exact pow_ne_one_of_powModAux 46076956964474543 5 ((46076956964474543 - 1) / 78283) 42611498466014028 (by decide) (by decide) (by decide)
    · exact pow_ne_one_of_powModAux 46076956964474543 5 ((46076956964474543 - 1) / 704251) 39823863406150289 (by decide) (by decide) (by decide)

/-- Lucas primality certificate for the Pratt-chain factor 774023187263532362759620327192479577272145303. -/
theorem primeG256 : Nat.Prime 774023187263532362759620327192479577272145303 := by
  have hL : ∀ r ∈ [2, 3, 3, 2411, 34282281433, 11290956913871, 46076956964474543], Nat.Prime r := by
    intro r hr
    fin_cases hr
    · exact Nat.prime_two
    · exact Nat.prime_three
    · exact Nat.prime_three
    · exact prime2411
    · exact prime34282281433
    · exact prime11290956913871
    · exact prime46076956964474543
  apply lucas_primality 774023187263532362759620327192479577272145303 ((3 : ℕ) : ZMod 774023187263532362759620327192479577272145303)
  · exact pow_eq_one_of_powModAux 774023187263532362759620327192479577272145303 3 (774023187263532362759620327192479577272145303 - 1) (by decide) (by decide)
  · intro q hq hdvd
    have hfac : (774023187263532362759620327192479577272145303 : ℕ) - 1 = ([2, 3, 3, 2411, 34282281433, 11290956913871, 46076956964474543] : List ℕ).prod := by decide
    rw [hfac] at hdvd
    have hmem := mem_of_prime_dvd_list q hq _ hL hdvd
    simp only [List.mem_cons, List.not_mem_nil, or_false] at hmem
    rcases hmem with rfl | rfl | rfl | rfl | rfl | rfl | rfl
    · exact pow_ne_one_of_powModAux 774023187263532362759620327192479577272145303 3 ((774023187263532362759620327192479577272145303 - 1) / 2) 774023187263532362759620327192479577272145302 (by decide) (by decide) (by decide)
    · exact pow_ne_one_of_powModAux 774023187263532362759620327192479577272145303 3 ((774023187263532362759620327192479577272145303 - 1) / 3) 342105087900156787254680645010758830420509371 (by decide) (by decide) (by decide)
    · exact pow_ne_one_of_powModAux 774023187263532362759620327192479577272145303 3 ((774023187263532362759620327192479577272145303 - 1) / 3) 342105087900156787254680645010758830420509371 (by decide) (by decide) (by decide)
    · exact pow_ne_one_of_powModAux 774023187263532362759620327192479577272145303 3 ((774023187263532362759620327192479577272145303 - 1) / 2411) 324584374317922097696394325333006843052436777 (by decide) (by decide) (by decide)
    · exact pow_ne_one_of_powModAux 774023187263532362759620327192479577272145303 3 ((774023187263532362759620327192479577272145303 - 1) / 34282281433) 595581219033769797539780519355039589707495215 (by decide) (by decide) (by decide)
    · exact pow_ne_one_of_powModAux 774023187263532362759620327192479577272145303 3 ((774023187263532362759620327192479577272145303 - 1) / 11290956913871) 204079885604637912806045183145727919649718033 (by decide) (by decide) (by decide)
    · exact pow_ne_one_of_powModAux 774023187263532362759620327192479577272145303 3 ((774023187263532362759620327192479577272145303 - 1) / 46076956964474543) 401626945418811252927162561870334717705066067 (by decide) (by decide) (by decide)

/-- Lucas primality certificate for the Pratt-chain factor 835945042244614951780389953367877943453916927241. -/
theorem primeF256 : Nat.Prime 835945042244614951780389953367877943453916927241 := by
  have hL : ∀ r ∈ [2, 2, 2, 3, 3, 3, 5, 774023187263532362759620327192479577272145303], Nat.Prime r := by
    intro r hr
    fin_cases hr
    · exact Nat.prime_two
    · exact Nat.prime_two
    · exact Nat.prime_two
    · exact Nat.prime_three
    · exact Nat.prime_three
    · exact Nat.prime_three
    · exact prime5
    · exact primeG256
  apply lucas_primality 835945042244614951780389953367877943453916927241 ((11 : ℕ) : ZMod 835945042244614951780389953367877943453916927241)
  · exact pow_eq_one_of_powModAux 835945042244614951780389953367877943453916927241 11 (835945042244614951780389953367877943453916927241 - 1) (by decide) (by decide)
  · intro q hq hdvd
    have hfac : (835945042244614951780389953367877943453916927241 : ℕ) - 1 = ([2, 2, 2, 3, 3, 3, 5, 774023187263532362759620327192479577272145303] : List ℕ).prod := by decide
    rw [hfac] at hdvd
    have hmem := mem_of_prime_dvd_list q hq _ hL hdvd
    simp only [List.mem_cons, List.not_mem_nil, or_false] at hmem
    rcases hmem with rfl | rfl | rfl | rfl | rfl | rfl | rfl | rfl
    · exact pow_ne_one_of_powModAux 835945042244614951780389953367877943453916927241 11 ((835945042244614951780389953367877943453916927241 - 1) / 2) 835945042244614951780389953367877943453916927240 (by decide) (by decide) (by decide)
    · exact pow_ne_one_of_powModAux 835945042244614951780389953367877943453916927241 11 ((835945042244614951780389953367877943453916927241 - 1) / 2) 835945042244614951780389953367877943453916927240 (by decide) (by decide) (by decide)
    · exact pow_ne_one_of_powModAux 835945042244614951780389953367877943453916927241 11 ((835945042244614951780389953367877943453916927241 - 1) / 2) 835945042244614951780389953367877943453916927240 (by decide) (by decide) (by decide)
    · exact pow_ne_one_of_powModAux 835945042244614951780389953367877943453916927241 11 ((835945042244614951780389953367877943453916927241 - 1) / 3) 659583265388817893262429286824048416550690147508 (by decide) (by decide) (by decide)
    · exact pow_ne_one_of_powModAux 835945042244614951780389953367877943453916927241 11 ((835945042244614951780389953367877943453916927241 - 1) / 3) 659583265388817893262429286824048416550690147508 (by decide) (by decide) (by decide)
    · exact pow_ne_one_of_powModAux 835945042244614951780389953367877943453916927241 11 ((835945042244614951780389953367877943453916927241 - 1) / 3) 659583265388817893262429286824048416550690147508 (by decide) (by decide) (by decide)
    · exact pow_ne_one_of_powModAux 835945042244614951780389953367877943453916927241 11 ((835945042244614951780389953367877943453916927241 - 1) / 5) 740637215997056829735642035568637448488372650221 (by decide) (by decide) (by decide)
    · exact pow_ne_one_of_powModAux 835945042244614951780389953367877943453916927241 11 ((835945042244614951780389953367877943453916927241 - 1) / 774023187263532362759620327192479577272145303) 131635143045193215265986545828163138097153446769 (by decide) (by decide) (by decide)

/-- Lucas primality certificate for the Pratt-chain factor 115792089210356248762697446949407573530086143415290314195533631308867097853951. -/
theorem primeP256 : Nat.Prime 115792089210356248762697446949407573530086143415290314195533631308867097853951 := by
  have hL : ∀ r ∈ [2, 3, 5, 5, 17, 257, 641, 1531, 65537, 490463, 6700417, 835945042244614951780389953367877943453916927241], Nat.Prime r := by
    intro r hr
    fin_cases hr
    · exact Nat.prime_two
    · exact Nat.prime_three
    · exact prime5
    · exact prime5
    · exact prime17
    · exact prime257
    · exact prime641
    · exact prime1531
    · exact prime65537
    · exact prime490463
    · exact prime6700417
    · exact primeF256
  apply lucas_primality 115792089210356248762697446949407573530086143415290314195533631308867097853951 ((6 : ℕ) : ZMod 115792089210356248762697446949407573530086143415290314195533631308867097853951)
  · exact pow_eq_one_of_powModAux 115792089210356248762697446949407573530086143415290314195533631308867097853951 6 (115792089210356248762697446949407573530086143415290314195533631308867097853951 - 1) (by decide) (by decide)
  · intro q hq hdvd
    have hfac : (115792089210356248762697446949407573530086143415290314195533631308867097853951 : ℕ) - 1 = ([2, 3, 5, 5, 17, 257, 641, 1531, 65537, 490463, 6700417, 835945042244614951780389953367877943453916927241] : List ℕ).prod := by decide
    rw [hfac] at hdvd
    have hmem := mem_of_prime_dvd_list q hq _ hL hdvd
    simp only [List.mem_cons, List.not_mem_nil, or_false] at hmem
    rcases hmem with rfl | rfl | rfl | rfl | rfl | rfl | rfl | rfl | rfl | rfl | rfl | rfl
    · exact pow_ne_one_of_powModAux 115792089210356248762697446949407573530086143415290314195533631308867097853951 6 ((115792089210356248762697446949407573530086143415290314195533631308867097853951 - 1) / 2) 115792089210356248762697446949407573530086143415290314195533631308867097853950 (by decide) (by decide) (by decide)
    · exact pow_ne_one_of_powModAux 115792089210356248762697446949407573530086143415290314195533631308867097853951 6 ((115792089210356248762697446949407573530086143415290314195533631308867097853951 - 1) / 3) 35023605962199012655950408426974944573707350271027821222272152018745053261006 (by decide) (by decide) (by decide)
    · exact pow_ne_one_of_powModAux 115792089210356248762697446949407573530086143415290314195533631308867097853951 6 ((115792089210356248762697446949407573530086143415290314195533631308867097853951 - 1) / 5) 6229376481089818046009298593172269900623949992504136305657492441987309054734 (by decide) (by decide) (by decide)
    · exact pow_ne_one_of_powModAux 115792089210356248762697446949407573530086143415290314195533631308867097853951 6 ((115792089210356248762697446949407573530086143415290314195533631308867097853951 - 1) / 5) 6229376481089818046009298593172269900623949992504136305657492441987309054734 (by decide) (by decide) (by decide)
    · exact pow_ne_one_of_powModAux 115792089210356248762697446949407573530086143415290314195533631308867097853951 6 ((115792089210356248762697446949407573530086143415290314195533631308867097853951 - 1) / 17) 2134607866216034886983661339381351782330682792970743088143795280383550005858 (by decide) (by decide) (by decide)
    · exact pow_ne_one_of_powModAux 115792089210356248762697446949407573530086143415290314195533631308867097853951 6 ((115792089210356248762697446949407573530086143415290314195533631308867097853951 - 1) / 257) 94784035371912852912874182022529621622294755194336741774199288822185853816770 (by decide) (by decide) (by decide)
    · exact pow_ne_one_of_powModAux 115792089210356248762697446949407573530086143415290314195533631308867097853951 6 ((115792089210356248762697446949407573530086143415290314195533631308867097853951 - 1) / 641) 73772617749849487604415205117597022814228633036826951038419219002741772834126 (by decide) (by decide) (by decide)
    · exact pow_ne_one_of_powModAux 115792089210356248762697446949407573530086143415290314195533631308867097853951 6 ((115792089210356248762697446949407573530086143415290314195533631308867097853951 - 1) / 1531) 87083230532117752554147991845578870696698760857476716249127647529451443651015 (by decide) (by decide) (by decide)
    · exact pow_ne_one_of_powModAux 115792089210356248762697446949407573530086143415290314195533631308867097853951 6 ((115792089210356248762697446949407573530086143415290314195533631308867097853951 - 1) / 65537) 108225251348322012978461859646483553569711948028822648349432096442594643790199 (by decide) (by decide) (by decide)
    · exact pow_ne_one_of_powModAux 115792089210356248762697446949407573530086143415290314195533631308867097853951 6 ((115792089210356248762697446949407573530086143415290314195533631308867097853951 - 1) / 490463) 47551681459734928383308379463919739026341324778493777690629929511110838017908 (by decide) (by decide) (by decide)
    · exact pow_ne_one_of_powModAux 115792089210356248762697446949407573530086143415290314195533631308867097853951 6 ((115792089210356248762697446949407573530086143415290314195533631308867097853951 - 1) / 6700417) 86900396401832178961235217232859237981114935325153096234781032859889316105536 (by decide) (by decide) (by decide)
    · exact pow_ne_one_of_powModAux 115792089210356248762697446949407573530086143415290314195533631308867097853951 6 ((115792089210356248762697446949407573530086143415290314195533631308867097853951 - 1) / 835945042244614951780389953367877943453916927241) 93882109679675135199221146535073045946130483842109404968837642110682298522059 (by decide) (by decide) (by decide)
/-- The protocol constant `P` (the NIST P-256 field prime) is prime. -/
theorem P_prime : Nat.Prime P := primeP256

/-- C2: the round-2 transition outputs the single ciphertext
`E(((D(e_t_masked) − n_t_mod_p) mod p)^(p−3) mod p)` under the session
keypair, and the successor `StepTwo` state retains exactly
`a_masked_mod_p = (D(e_a_masked) − n_a_mod_p) mod p` (and nothing else:
`t_masked_mod_p` and its powered form do not occur in the successor). -/
theorem round2_message_and_state (core : SecretShareMasterCore StepOne) (s : S1) (r : ℕ) :
    StepOne.next core s r =
      (⟨paillierEncrypt core.enc_key r
          ((subModInt (paillierDecrypt core.dec_key s.e_t_masked) s.n_t_mod_p core.p)
              ^ (core.p - 3) % core.p)⟩,
       ⟨core.p,
        ⟨subModInt (paillierDecrypt core.dec_key s.e_a_masked) s.n_a_mod_p core.p⟩,
        core.enc_key, core.dec_key⟩) := by
  simp only [StepOne.next, mod_pow, mod_sub_eq_subModInt]

/-- C3: the round-3 transition outputs the single ciphertext
`E((((D(e_b_masked) − n_b_mod_p) mod p) · a_masked_mod_p) mod p)` under the
session keypair. -/
theorem round3_message_and_state (core : SecretShareMasterCore StepTwo) (s : S2) (r : ℕ) :
    StepTwo.next core s r =
      (⟨paillierEncrypt core.enc_key r
          ((subModInt (paillierDecrypt core.dec_key s.e_b_masked) s.n_b_mod_p core.p)
              * core.state.a_masked_mod_p % core.p)⟩,
       ⟨core.p, StepThree.mk, core.enc_key, core.dec_key⟩) := by
  simp only [StepTwo.next, mod_mul, mod_sub_eq_subModInt]

/-- C8: every round transition copies the prime `p`, the encryption key and
the decryption key into the successor state unchanged. -/
theorem keys_and_prime_invariant :
    (∀ (c : SecretShareMasterCore Initialized) (r1 r2 r3 r4 : ℕ),
        (Initialized.next c r1 r2 r3 r4).2.p = c.p
      ∧ (Initialized.next c r1 r2 r3 r4).2.enc_key = c.enc_key
      ∧ (Initialized.next c r1 r2 r3 r4).2.dec_key = c.dec_key)
  ∧ (∀ (c : SecretShareMasterCore StepOne) (s : S1) (r : ℕ),
        (StepOne.next c s r).2.p = c.p
      ∧ (StepOne.next c s r).2.enc_key = c.enc_key
      ∧ (StepOne.next c s r).2.dec_key = c.dec_key)
  ∧ (∀ (c : SecretShareMasterCore StepTwo) (s : S2) (r : ℕ),
        (StepTwo.next c s r).2.p = c.p
      ∧ (StepTwo.next c s r).2.enc_key = c.enc_key
      ∧ (StepTwo.next c s r).2.dec_key = c.dec_key)
  ∧ (∀ (c : SecretShareMasterCore StepThree) (s : S3),
        (StepThree.next c s).p = c.p
      ∧ (StepThree.next c s).enc_key = c.enc_key
      ∧ (StepThree.next c s).dec_key = c.dec_key) :=
  ⟨fun _ _ _ _ _ => ⟨rfl, rfl, rfl⟩,
   fun _ _ _ => ⟨rfl, rfl, rfl⟩,
   fun _ _ _ => ⟨rfl, rfl, rfl⟩,
   fun _ _ => ⟨rfl, rfl, rfl⟩⟩

/-- C10: construction from any point with both coordinate byte strings
present succeeds and stores the exact big-endian integer values of those
bytes (no reduction modulo `p`, no validation), and round 1's first
ciphertext encrypts the stored, unreduced `x` itself. -/
theorem construction_stores_unreduced_coordinates
    (xb yb : List ℕ) (kp : Keypair) (r1 r2 r3 r4 : ℕ) :
    SecretShareMasterCore.new (EncodedPoint.uncompressed xb yb) kp =
      Except.ok ⟨P, ⟨from_bytes xb, from_bytes yb⟩, kp.keys.1, kp.keys.2⟩
  ∧ (Initialized.next ⟨P, ⟨from_bytes xb, from_bytes yb⟩, kp.keys.1, kp.keys.2⟩
        r1 r2 r3 r4).1.e_x_q
      = paillierEncrypt kp.keys.1 r1 (from_bytes xb) :=
  ⟨rfl, rfl⟩

/-- C6: constructing a session from a point that lacks extractable
coordinates (no x bytes or no y bytes — in particular any compressed or
identity encoding) fails with `invalidPoint` and creates no session. -/
theorem new_rejects_invalid_point (pt : EncodedPoint) (kp : Keypair)
    (h : pt.x = none ∨ pt.y = none) :
    SecretShareMasterCore.new pt kp = Except.error SecretShareError.invalidPoint := by
  cases pt with
  | identity => rfl
  | compressed xb yOdd => rfl
  | uncompressed xb yb => simp [EncodedPoint.x, EncodedPoint.y] at h

/-- Witness for C6: a concrete compressed point (no y bytes) is rejected at
construction time. -/
theorem new_rejects_invalid_point_witness :
    ((EncodedPoint.compressed [2] true).x = none ∨ (EncodedPoint.compressed [2] true).y = none)
  ∧ SecretShareMasterCore.new (EncodedPoint.compressed [2] true) ⟨3, 5⟩
      = Except.error SecretShareError.invalidPoint :=
  ⟨Or.inr rfl, new_rejects_invalid_point (EncodedPoint.compressed [2] true) ⟨3, 5⟩ (Or.inr rfl)⟩

/-- C4: the round-4 transition stores as the terminal secret the decryption
of `e_pms_masked` reduced modulo `p`; secret extraction returns exactly that
stored value; and when `p > 0` (as it always is for a session, whose `p` is
the P-256 prime) the secret lies in `[0, p)`. -/
theorem round4_secret_and_range (core : SecretShareMasterCore StepThree) (s : S3) :
    (StepThree.next core s).state.secret
        = paillierDecrypt core.dec_key s.e_pms_masked % core.p
  ∧ (∀ d : SecretShareMasterCore Complete, SecretShareMasterCore.secret d = d.state.secret)
  ∧ (0 < core.p → (StepThree.next core s).state.secret < core.p) :=
  ⟨rfl, fun _ => rfl, fun hp => Nat.mod_lt _ hp⟩

/-- Witness for C4 at a concrete session state and inbound message. -/
theorem round4_secret_and_range_witness :
    (StepThree.next ⟨13, StepThree.mk, ⟨15, 225⟩, ⟨3, 5⟩⟩ ⟨7⟩).state.secret
        = paillierDecrypt ⟨3, 5⟩ 7 % 13
  ∧ SecretShareMasterCore.secret (StepThree.next ⟨13, StepThree.mk, ⟨15, 225⟩, ⟨3, 5⟩⟩ ⟨7⟩)
        = (StepThree.next ⟨13, StepThree.mk, ⟨15, 225⟩, ⟨3, 5⟩⟩ ⟨7⟩).state.secret
  ∧ (StepThree.next ⟨13, StepThree.mk, ⟨15, 225⟩, ⟨3, 5⟩⟩ ⟨7⟩).state.secret < 13 :=
  ⟨(round4_secret_and_range ⟨13, StepThree.mk, ⟨15, 225⟩, ⟨3, 5⟩⟩ ⟨7⟩).1,
   (round4_secret_and_range ⟨13, StepThree.mk, ⟨15, 225⟩, ⟨3, 5⟩⟩ ⟨7⟩).2.1 _,
   (round4_secret_and_range ⟨13, StepThree.mk, ⟨15, 225⟩, ⟨3, 5⟩⟩ ⟨7⟩).2.2 (by decide)⟩

/-- A session state at round 2 whose keypair is `(3, 5)` (so `n² = 225`). -/
def c7Core : SecretShareMasterCore StepOne := ⟨P, StepOne.mk, ⟨15, 225⟩, ⟨3, 5⟩⟩

/-- A round-2 inbound message whose ciphertexts are `300 ≥ 225 = n²`: by
`paillierEncrypt_lt`, `300` is not a valid encryption under the session
key. -/
def c7Msg : S1 := ⟨300, 0, 300, 0⟩

/-- C7 counterexample: fed a ciphertext that no valid encryption under the
session key can produce, the round-2 transition does not fail with
`decryptionError` — the underlying decryption is total and the round
completes. -/
theorem round2_error_claim_counterexample :
    StepOne.nextE c7Core c7Msg 1 ≠ Except.error SecretShareError.decryptionError :=
  fun h => Except.noConfusion h

/-- C7 amended: the round-2 transition is total: for every session state,
every inbound message (well-formed or corrupt) and every randomness it
completes with `ok`; no `decryptionError` (nor any other failure) can
occur. -/
theorem round2_never_fails (core : SecretShareMasterCore StepOne) (s : S1) (r : ℕ)
    (e : SecretShareError) : StepOne.nextE core s r ≠ Except.error e :=
  fun h => Except.noConfusion h

/-- C9: each available operation advances the round position by exactly one,
and the `Complete` state is reachable from `Initialized` only by exactly the
four round transitions in order; there is no shortcut path to the terminal
secret. -/
theorem round_order_enforced :
    (∀ (n : ℕ) (s t : MasterState), StepN n s t → roundIndex t = roundIndex s + n)
  ∧ (∀ (n : ℕ) (c : SecretShareMasterCore Initialized) (d : SecretShareMasterCore Complete),
      StepN n (MasterState.initialized c) (MasterState.complete d) → n = 4) := by
  have hstep : ∀ s t, MasterStep s t → roundIndex t = roundIndex s + 1 := by
    intro s t h
    cases h <;> rfl
  have hmain : ∀ (n : ℕ) (s t : MasterState), StepN n s t → roundIndex t = roundIndex s + n := by
    intro n s t h
    induction h with
    | refl s => rfl
    | tail h hstep2 ih =>
      rw [hstep _ _ hstep2, ih]
      omega
  refine ⟨hmain, ?_⟩
  intro n c d h
  have hidx := hmain n _ _ h
  simp only [roundIndex] at hidx
  omega

/-- A concrete initialized session used to exercise the round-order
theorem. -/
def traceCore0 : SecretShareMasterCore Initialized := ⟨P, ⟨2, 3⟩, ⟨15, 225⟩, ⟨3, 5⟩⟩

/-- The session after round 1 of the concrete trace. -/
def traceCore1 : SecretShareMasterCore StepOne := (Initialized.next traceCore0 1 1 1 1).2

/-- The session after round 2 of the concrete trace. -/
def traceCore2 : SecretShareMasterCore StepTwo := (StepOne.next traceCore1 ⟨1, 0, 1, 0⟩ 1).2

/-- The session after round 3 of the concrete trace. -/
def traceCore3 : SecretShareMasterCore StepThree := (StepTwo.next traceCore2 ⟨1, 0⟩ 1).2

/-- The session after round 4 of the concrete trace. -/
def traceCore4 : SecretShareMasterCore Complete := StepThree.next traceCore3 ⟨1⟩

/-- Witness for C9: a concrete full run takes exactly four transitions. -/
theorem round_order_enforced_witness :
    StepN 4 (MasterState.initialized traceCore0) (MasterState.complete traceCore4)
  ∧ (4 : ℕ) = 4 := by
  have htrace : StepN 4 (MasterState.initialized traceCore0) (MasterState.complete traceCore4) :=
    StepN.tail (StepN.tail (StepN.tail (StepN.tail (StepN.refl _)
      (MasterStep.round1 traceCore0 1 1 1 1))
      (MasterStep.round2 traceCore1 ⟨1, 0, 1, 0⟩ 1))
      (MasterStep.round3 traceCore2 ⟨1, 0⟩ 1))
      (MasterStep.round4 traceCore3 ⟨1⟩)
  exact ⟨htrace, round_order_enforced.2 4 traceCore0 traceCore4 htrace⟩

/-- C1 (amended): round 1's outbound message carries the session encryption
key and encryptions of the *unreduced* x-coordinate, of `(−x) mod p`, of
`y² mod p` and of `(−2y) mod p`; only the first plaintext is not reduced
modulo `p` (the claim as stated, with `x mod p`, fails — see the
counterexample). -/
theorem round1_message (core : SecretShareMasterCore Initialized) (r1 r2 r3 r4 : ℕ) :
    Initialized.next core r1 r2 r3 r4 =
      (⟨core.enc_key,
        paillierEncrypt core.enc_key r1 core.state.x,
        paillierEncrypt core.enc_key r2 (negModInt core.state.x core.p),
        paillierEncrypt core.enc_key r3 (core.state.y ^ 2 % core.p),
        paillierEncrypt core.enc_key r4 (negModInt (2 * core.state.y) core.p)⟩,
       ⟨core.p, StepOne.mk, core.enc_key, core.dec_key⟩) := by
  simp only [Initialized.next, mod_pow, mod_sub_eq_subModInt, subModInt_self_eq_negModInt]

/-- The 32 big-endian bytes of the P-256 prime itself: a well-formed
32-byte x-coordinate encoding whose integer value equals `p`. -/
def pBytes : List ℕ :=
  [255, 255, 255, 255, 0, 0, 0, 1, 0, 0, 0, 0, 0, 0, 0, 0, 0, 0, 0, 0,
   255, 255, 255, 255, 255, 255, 255, 255, 255, 255, 255, 255]

/-- A session constructed from an uncompressed point whose x-coordinate
bytes encode the value `p` itself (so `x = p ≥ p`), with keypair `(3, 5)`. -/
def c1Core : SecretShareMasterCore Initialized := ⟨P, ⟨P, 1⟩, ⟨15, 225⟩, ⟨3, 5⟩⟩

/-- C1 counterexample: for the session constructed from the point with
`x = p` (a representable 32-byte coordinate), round 1's first ciphertext is
the encryption of `x` itself, which differs from the encryption of
`x mod p` claimed by the specification. -/
theorem round1_message_counterexample :
    SecretShareMasterCore.new (EncodedPoint.uncompressed pBytes [1]) ⟨3, 5⟩ = Except.ok c1Core
  ∧ (Initialized.next c1Core 1 1 1 1).1.e_x_q
      ≠ paillierEncrypt c1Core.enc_key 1 (c1Core.state.x % c1Core.p) := by
  constructor
  · rfl
  · have hgen : ∀ e : ℕ, paillierEncrypt ⟨15, 225⟩ 1 e = 16 ^ (e % 15) % 225 := by
      intro e
      show ((15 + 1) ^ e * 1 ^ 15) % 225 = 16 ^ (e % 15) % 225
      rw [show (15 + 1 : ℕ) = 16 from rfl, one_pow, mul_one,
        pow_mod_cycle 16 15 225 e (by decide)]
    have hL9 : (16 : ℕ) ^ (P % 15) % 225 = 16 := by decide
    have hL : (Initialized.next c1Core 1 1 1 1).1.e_x_q = 16 := by
      simp only [Initialized.next, c1Core]
      rw [hgen P]
      exact hL9
    have hR : paillierEncrypt c1Core.enc_key 1 (c1Core.state.x % c1Core.p) = 1 := by decide
    rw [hL, hR]
    decide

/-- C5: for the NIST P-256 prime `P` and every nonzero `t < P`, the round-2
exponentiation `t^(P−3) mod P` multiplied by `t²` is `1` modulo `P`: the
computed value is the multiplicative inverse of the square of its base. -/
theorem fermat_inverse_of_square (t : ℕ) (h1 : 0 < t) (h2 : t < P) :
    (mod_pow t (P - 3) P * t ^ 2) % P = 1 := by
  haveI : Fact (Nat.Prime P) := ⟨P_prime⟩
  have hP4 : 4 ≤ P := by decide
  have htz : (t : ZMod P) ≠ 0 := by
    rw [Ne, ZMod.natCast_zmod_eq_zero_iff_dvd]
    intro hdvd
    have := Nat.le_of_dvd h1 hdvd
    omega
  have hferm : (t : ZMod P) ^ (P - 1) = 1 := ZMod.pow_card_sub_one_eq_one htz
  have hexp : P - 3 + 2 = P - 1 := by omega
  have hmul : mod_pow t (P - 3) P * t ^ 2 % P = t ^ (P - 1) % P := by
    simp only [mod_pow]
    rw [Nat.mod_mul_mod, ← pow_add, hexp]
  rw [hmul]
  have hcast : ((t ^ (P - 1) : ℕ) : ZMod P) = ((1 : ℕ) : ZMod P) := by
    push_cast
    rw [hferm]
  have hmodeq := (ZMod.natCast_eq_natCast_iff' (t ^ (P - 1)) 1 P).mp hcast
  rw [hmodeq, Nat.mod_eq_of_lt (by omega : 1 < P)]

/-- Witness for C5 at `t = 2`. -/
theorem fermat_inverse_of_square_witness :
    0 < 2 ∧ 2 < P ∧ (mod_pow 2 (P - 3) P * 2 ^ 2) % P = 1 :=
  ⟨by decide, by decide, fermat_inverse_of_square 2 (by decide) (by decide)⟩
